import Mathlib

/-!
Shallow embedding of the FlowGo workflow-engine core (task service, runtime
service, command-executor interceptor chain) and proofs about its claimed
behaviour.  Go `map[string]T` values are modelled as functions
`String → Option T`; Go `time.Time` as `Nat`; Go `interface{}` variable
values as an abstract type parameter `V`.  Every mutating service method is
translated as `state → Except Err α × state`, returning the untouched state
on the error paths exactly where the Go code returns before mutating.
Go `panic` is modelled as `Option.none` in the constructor that panics.
-/

namespace FlowGo

/-- Wall-clock instants (`time.Time`); only ordering/identity matters here. -/
abbrev Time := Nat

/-- A Go `map[string]interface{}` variable map, as a partial function. -/
abbrev VarMap (V : Type) := String → Option V

/-- The empty variable map (a freshly `make`d Go map). -/
def VarMap.empty {V : Type} : VarMap V := fun _ => none

/-- Point update of a string-keyed map (`m[k] = v`, or `delete` for `none`). -/
def setKey {α : Type} (m : String → Option α) (k : String) (v : Option α) :
    String → Option α :=
  fun q => if q = k then v else m q

/-- Go `for k, v := range incoming { base[k] = v }`: the incoming entries win.
The result is independent of Go's map iteration order. -/
def VarMap.merge {V : Type} (base incoming : VarMap V) : VarMap V :=
  fun k => match incoming k with
    | some v => some v
    | none => base k

/-- Entries of a possibly-nil Go map (`nil` has no entries). -/
def optEntries {V : Type} (m : Option (VarMap V)) : VarMap V :=
  fun k => match m with
    | some vm => vm k
    | none => none

/-- Go `task.Task` (api/task/types.go).  The two form/graphical flags of other
records are carried verbatim where the modelled operations can reach them. -/
structure Task where
  ID : String
  Name : String := ""
  Description : String := ""
  Priority : Int := 0
  Owner : String := ""
  Assignee : String := ""
  DueDate : Option Time := none
  Category : String := ""
  FormKey : String := ""
  ParentTaskID : String := ""
  ProcessInstanceID : String := ""
  ProcessDefinitionID : String := ""
  ExecutionID : String := ""
  TaskDefinitionKey : String := ""
  CreateTime : Time := 0
  ClaimTime : Option Time := none
  TenantID : String := ""
  Suspended : Bool := false
  CandidateUsers : List String := []
  CandidateGroups : List String := []
deriving DecidableEq, Repr

/-- Go `task.Comment`. -/
structure Comment where
  ID : String
  TaskID : String := ""
  UserID : String := ""
  Message : String := ""
  Time : Time := 0
deriving DecidableEq, Repr

/-- Go `task.Attachment` (`Content []byte` as a list of bytes). -/
structure Attachment where
  ID : String
  Name : String := ""
  Description : String := ""
  «Type» : String := ""
  TaskID : String := ""
  ProcessInstanceID : String := ""
  URL : String := ""
  Content : List Nat := []
  Time : Time := 0
deriving DecidableEq, Repr

/-- Go `runtime.ProcessInstance`. -/
structure ProcessInstance where
  ID : String
  ProcessDefinitionID : String := ""
  ProcessDefinitionKey : String := ""
  ProcessDefinitionName : String := ""
  BusinessKey : String := ""
  StartTime : Time := 0
  EndTime : Option Time := none
  StartUserID : String := ""
  Suspended : Bool := false
  TenantID : String := ""
  RootProcessInstanceID : String := ""
  ParentProcessInstanceID : String := ""
deriving DecidableEq, Repr

/-- Go `runtime.Execution`. -/
structure Execution where
  ID : String
  ProcessInstanceID : String := ""
  ParentID : String := ""
  ActivityID : String := ""
  IsActive : Bool := false
  IsConcurrent : Bool := false
  IsScope : Bool := false
  IsEventScope : Bool := false
  Suspended : Bool := false
  TenantID : String := ""
deriving DecidableEq, Repr

/-- Go `repository.ProcessDefinition` (the graphical-notation flag, unused by
every modelled operation, is left out). -/
structure ProcessDefinition where
  ID : String
  Key : String := ""
  Name : String := ""
  Description : String := ""
  Version : Int := 0
  Category : String := ""
  DeploymentID : String := ""
  ResourceName : String := ""
  TenantID : String := ""
  Suspended : Bool := false
  StartFormKey : String := ""
  HasStartFormKey : Bool := false
deriving DecidableEq, Repr

/-- The `fmt.Errorf` values the services return, by provenance. -/
inductive Err where
  /-- Message "task not found: %s" -/
  | taskNotFound (taskID : String)
  /-- Message "task is already claimed by another user: %s" -/
  | alreadyClaimedBy (assignee : String)
  /-- Message "execution not found: %s" -/
  | executionNotFound (executionID : String)
  /-- Message "process instance not found: %s" -/
  | processInstanceNotFound (processInstanceID : String)
  /-- Message "attachment not found: %s" -/
  | attachmentNotFound (attachmentID : String)
  /-- Message "process definition x is suspended" -/
  | definitionSuspended (definitionID : String)
  /-- Message "failed to set variables: %w" -/
  | setVariablesFailed (inner : Err)
  /-- Message "failed to signal execution: %w" -/
  | signalFailed (inner : Err)
deriving DecidableEq, Repr

/-- The in-memory state owned by `taskServiceImpl` (api/runtime/service.go):
`tasks`, `comments`, `attachments` and `variables` maps.  A Go map of slices
reads as the empty slice at absent keys, so the two slice maps are total. -/
structure TaskStore (V : Type) where
  tasks : String → Option Task
  comments : String → List Comment
  attachments : String → List Attachment
  «variables» : String → Option (VarMap V)

/-- The in-memory state owned by `runtimeServiceImpl`. -/
structure RuntimeStore (V : Type) where
  processInstances : String → Option ProcessInstance
  executions : String → Option Execution
  «variables» : String → Option (VarMap V)

variable {V : Type}

/-! ### runtimeServiceImpl methods -/

/-- Go `runtimeServiceImpl.SetVariables`. -/
def RuntimeStore.SetVariables (s : RuntimeStore V) (executionID : String)
    («variables» : VarMap V) : Except Err Unit × RuntimeStore V :=
  match s.executions executionID with
  | none => (.error (.executionNotFound executionID), s)
  | some _ =>
      let base := match s.«variables» executionID with
        | some m => m
        | none => VarMap.empty
      (.ok (), { s with
        «variables» := setKey s.«variables» executionID (some (base.merge «variables»)) })

/-- Go `runtimeServiceImpl.SetVariable`. -/
def RuntimeStore.SetVariable (s : RuntimeStore V) (executionID variableName : String)
    (value : V) : Except Err Unit × RuntimeStore V :=
  match s.executions executionID with
  | none => (.error (.executionNotFound executionID), s)
  | some _ =>
      let base := match s.«variables» executionID with
        | some m => m
        | none => VarMap.empty
      (.ok (), { s with
        «variables» := setKey s.«variables» executionID
          (some (setKey base variableName (some value))) })

/-- Go `runtimeServiceImpl.GetVariables`: a fresh copy of the scope (empty when
the scope map is nil). -/
def RuntimeStore.GetVariables (s : RuntimeStore V) (executionID : String) :
    Except Err (VarMap V) × RuntimeStore V :=
  match s.executions executionID with
  | none => (.error (.executionNotFound executionID), s)
  | some _ =>
      (.ok (fun k => match s.«variables» executionID with
        | some m => m k
        | none => none), s)

/-- Go `runtimeServiceImpl.SignalWithVariables`.  A nil `variables` map skips
the scope write entirely; a non-nil one is merged (creating the scope). -/
def RuntimeStore.SignalWithVariables (s : RuntimeStore V) (executionID : String)
    («variables» : Option (VarMap V)) : Except Err Unit × RuntimeStore V :=
  match s.executions executionID with
  | none => (.error (.executionNotFound executionID), s)
  | some _ =>
      match «variables» with
      | none => (.ok (), s)
      | some vm =>
          let base := match s.«variables» executionID with
            | some m => m
            | none => VarMap.empty
          (.ok (), { s with
            «variables» := setKey s.«variables» executionID (some (base.merge vm)) })

/-- Go `runtimeServiceImpl.Signal` delegates to `SignalWithVariables` with nil. -/
def RuntimeStore.Signal (s : RuntimeStore V) (executionID : String) :
    Except Err Unit × RuntimeStore V :=
  s.SignalWithVariables executionID none

/-- Go `runtimeServiceImpl.startProcessInstance`.  The `uuid.New().String()`
value and `time.Now()` are passed in as `newID` and `now`. -/
def RuntimeStore.startProcessInstance (s : RuntimeStore V)
    (processDefinition : ProcessDefinition) (businessKey : String)
    («variables» : Option (VarMap V)) (newID : String) (now : Time) :
    Except Err ProcessInstance × RuntimeStore V :=
  if processDefinition.Suspended then
    (.error (.definitionSuspended processDefinition.ID), s)
  else
    let processInstance : ProcessInstance :=
      { ID := newID
        ProcessDefinitionID := processDefinition.ID
        ProcessDefinitionKey := processDefinition.Key
        ProcessDefinitionName := processDefinition.Name
        BusinessKey := businessKey
        StartTime := now
        TenantID := processDefinition.TenantID
        RootProcessInstanceID := newID }
    let execution : Execution :=
      { ID := processInstance.ID
        ProcessInstanceID := processInstance.ID
        IsActive := true
        IsScope := true
        TenantID := processDefinition.TenantID }
    let s' : RuntimeStore V :=
      { s with
        processInstances := setKey s.processInstances processInstance.ID (some processInstance)
        executions := setKey s.executions execution.ID (some execution) }
    let s'' : RuntimeStore V :=
      match «variables» with
      | none => s'
      | some vm =>
          -- `make` plus an entry-by-entry copy loop
          { s' with «variables» := setKey s'.«variables» execution.ID (some (VarMap.empty.merge vm)) }
    (.ok processInstance, s'')

/-- Go `runtimeServiceImpl.DeleteProcessInstance`: checks existence, then for
every execution referencing the instance removes it and its variable scope,
and finally removes the instance itself. -/
def RuntimeStore.DeleteProcessInstance (s : RuntimeStore V)
    (processInstanceID : String) (_deleteReason : String) :
    Except Err Unit × RuntimeStore V :=
  match s.processInstances processInstanceID with
  | none => (.error (.processInstanceNotFound processInstanceID), s)
  | some _ =>
      (.ok (),
        { processInstances := setKey s.processInstances processInstanceID none
          executions := fun id => match s.executions id with
            | some e => if e.ProcessInstanceID = processInstanceID then none else some e
            | none => none
          «variables» := fun id => match s.executions id with
            | some e => if e.ProcessInstanceID = processInstanceID then none else s.«variables» id
            | none => s.«variables» id })

/-! ### taskServiceImpl methods that touch only the task store -/

/-- Go `taskServiceImpl.Claim` (`time.Now()` passed in as `now`). -/
def TaskStore.Claim (s : TaskStore V) (taskID userID : String) (now : Time) :
    Except Err Unit × TaskStore V :=
  match s.tasks taskID with
  | none => (.error (.taskNotFound taskID), s)
  | some task =>
      if task.Assignee ≠ "" ∧ task.Assignee ≠ userID then
        (.error (.alreadyClaimedBy task.Assignee), s)
      else
        (.ok (), { s with tasks := setKey s.tasks taskID (some { task with Assignee := userID, ClaimTime := some now }) })

/-- Go `taskServiceImpl.Unclaim`. -/
def TaskStore.Unclaim (s : TaskStore V) (taskID : String) :
    Except Err Unit × TaskStore V :=
  match s.tasks taskID with
  | none => (.error (.taskNotFound taskID), s)
  | some task =>
      (.ok (), { s with tasks := setKey s.tasks taskID (some { task with Assignee := "", ClaimTime := none }) })

/-- Go `taskServiceImpl.SetAssignee`: sets the assignee and nothing else. -/
def TaskStore.SetAssignee (s : TaskStore V) (taskID userID : String) :
    Except Err Unit × TaskStore V :=
  match s.tasks taskID with
  | none => (.error (.taskNotFound taskID), s)
  | some task =>
      (.ok (), { s with tasks := setKey s.tasks taskID (some { task with Assignee := userID }) })

/-- Go `taskServiceImpl.SetOwner`. -/
def TaskStore.SetOwner (s : TaskStore V) (taskID userID : String) :
    Except Err Unit × TaskStore V :=
  match s.tasks taskID with
  | none => (.error (.taskNotFound taskID), s)
  | some task =>
      (.ok (), { s with tasks := setKey s.tasks taskID (some { task with Owner := userID }) })

/-- Go `taskServiceImpl.AddCandidateUser`: no-op when already present. -/
def TaskStore.AddCandidateUser (s : TaskStore V) (taskID userID : String) :
    Except Err Unit × TaskStore V :=
  match s.tasks taskID with
  | none => (.error (.taskNotFound taskID), s)
  | some task =>
      if userID ∈ task.CandidateUsers then (.ok (), s)
      else
        (.ok (), { s with tasks := setKey s.tasks taskID (some { task with CandidateUsers := task.CandidateUsers ++ [userID] }) })

/-- Go `taskServiceImpl.AddCandidateGroup`. -/
def TaskStore.AddCandidateGroup (s : TaskStore V) (taskID groupID : String) :
    Except Err Unit × TaskStore V :=
  match s.tasks taskID with
  | none => (.error (.taskNotFound taskID), s)
  | some task =>
      if groupID ∈ task.CandidateGroups then (.ok (), s)
      else
        (.ok (), { s with tasks := setKey s.tasks taskID (some { task with CandidateGroups := task.CandidateGroups ++ [groupID] }) })

/-- Go `taskServiceImpl.DeleteCandidateUser`: removes the first occurrence. -/
def TaskStore.DeleteCandidateUser (s : TaskStore V) (taskID userID : String) :
    Except Err Unit × TaskStore V :=
  match s.tasks taskID with
  | none => (.error (.taskNotFound taskID), s)
  | some task =>
      (.ok (), { s with tasks := setKey s.tasks taskID (some { task with CandidateUsers := task.CandidateUsers.erase userID }) })

/-- Go `taskServiceImpl.DeleteCandidateGroup`. -/
def TaskStore.DeleteCandidateGroup (s : TaskStore V) (taskID groupID : String) :
    Except Err Unit × TaskStore V :=
  match s.tasks taskID with
  | none => (.error (.taskNotFound taskID), s)
  | some task =>
      (.ok (), { s with tasks := setKey s.tasks taskID (some { task with CandidateGroups := task.CandidateGroups.erase groupID }) })

/-- Go `taskServiceImpl.SetPriority`. -/
def TaskStore.SetPriority (s : TaskStore V) (taskID : String) (priority : Int) :
    Except Err Unit × TaskStore V :=
  match s.tasks taskID with
  | none => (.error (.taskNotFound taskID), s)
  | some task =>
      (.ok (), { s with tasks := setKey s.tasks taskID (some { task with Priority := priority }) })

/-- Go `taskServiceImpl.SetDueDate`. -/
def TaskStore.SetDueDate (s : TaskStore V) (taskID : String) (dueDate : Time) :
    Except Err Unit × TaskStore V :=
  match s.tasks taskID with
  | none => (.error (.taskNotFound taskID), s)
  | some task =>
      (.ok (), { s with tasks := setKey s.tasks taskID (some { task with DueDate := some dueDate }) })

/-- Go `taskServiceImpl.DeleteTask`: removes the record, its comments, its
attachments and its task-scoped variables. -/
def TaskStore.DeleteTask (s : TaskStore V) (taskID : String) :
    Except Err Unit × TaskStore V :=
  match s.tasks taskID with
  | none => (.error (.taskNotFound taskID), s)
  | some _ =>
      (.ok (),
        { tasks := setKey s.tasks taskID none
          comments := fun id => if id = taskID then [] else s.comments id
          attachments := fun id => if id = taskID then [] else s.attachments id
          «variables» := setKey s.«variables» taskID none })

/-- Go `taskServiceImpl.SaveTask` for a task with a non-empty ID. -/
def TaskStore.SaveTask (s : TaskStore V) (task : Task) :
    Except Err Unit × TaskStore V :=
  (.ok (), { s with tasks := setKey s.tasks task.ID (some task) })

/-- Go `taskServiceImpl.GetTaskVariables`: a copy, empty when the map is nil. -/
def TaskStore.GetTaskVariables (s : TaskStore V) (taskID : String) :
    Except Err (VarMap V) × TaskStore V :=
  match s.tasks taskID with
  | none => (.error (.taskNotFound taskID), s)
  | some _ =>
      (.ok (fun k => match s.«variables» taskID with
        | some m => m k
        | none => none), s)

/-- Go `taskServiceImpl.SetTaskVariable`. -/
def TaskStore.SetTaskVariable (s : TaskStore V) (taskID variableName : String)
    (value : V) : Except Err Unit × TaskStore V :=
  match s.tasks taskID with
  | none => (.error (.taskNotFound taskID), s)
  | some _ =>
      let base := match s.«variables» taskID with
        | some m => m
        | none => VarMap.empty
      (.ok (), { s with «variables» := setKey s.«variables» taskID (some (setKey base variableName (some value))) })

/-- Go `taskServiceImpl.SetTaskVariables`. -/
def TaskStore.SetTaskVariables (s : TaskStore V) (taskID : String)
    («variables» : VarMap V) : Except Err Unit × TaskStore V :=
  match s.tasks taskID with
  | none => (.error (.taskNotFound taskID), s)
  | some _ =>
      let base := match s.«variables» taskID with
        | some m => m
        | none => VarMap.empty
      (.ok (), { s with «variables» := setKey s.«variables» taskID (some (base.merge «variables»)) })

/-- Go `taskServiceImpl.RemoveTaskVariable`. -/
def TaskStore.RemoveTaskVariable (s : TaskStore V) (taskID variableName : String) :
    Except Err Unit × TaskStore V :=
  match s.tasks taskID with
  | none => (.error (.taskNotFound taskID), s)
  | some _ =>
      match s.«variables» taskID with
      | none => (.ok (), s)
      | some m =>
          (.ok (), { s with «variables» := setKey s.«variables» taskID (some (setKey m variableName none)) })

/-- Go `taskServiceImpl.AddComment` (`uuid` and `time.Now()` passed in). -/
def TaskStore.AddComment (s : TaskStore V) (taskID message : String)
    (newID : String) (now : Time) : Except Err Comment × TaskStore V :=
  match s.tasks taskID with
  | none => (.error (.taskNotFound taskID), s)
  | some _ =>
      let comment : Comment := { ID := newID, TaskID := taskID, Message := message, Time := now }
      (.ok comment, { s with comments := fun id =>
        if id = taskID then s.comments taskID ++ [comment] else s.comments id })

/-- Go `taskServiceImpl.CreateAttachment` (`uuid` and `time.Now()` passed in). -/
def TaskStore.CreateAttachment (s : TaskStore V)
    (taskID attachmentType attachmentName attachmentDescription : String)
    (content : List Nat) (newID : String) (now : Time) :
    Except Err Attachment × TaskStore V :=
  match s.tasks taskID with
  | none => (.error (.taskNotFound taskID), s)
  | some task =>
      let attachment : Attachment :=
        { ID := newID
          Name := attachmentName
          Description := attachmentDescription
          «Type» := attachmentType
          TaskID := taskID
          ProcessInstanceID := task.ProcessInstanceID
          Content := content
          Time := now }
      (.ok attachment, { s with attachments := fun id =>
        if id = taskID then s.attachments taskID ++ [attachment] else s.attachments id })

/-- Whether some task owns an attachment with this ID. -/
def TaskStore.hasAttachment (s : TaskStore V) (taskID attachmentID : String) : Bool :=
  (s.attachments taskID).any (fun a => a.ID = attachmentID)

/-- Go `taskServiceImpl.DeleteAttachment` scans the attachments of every task
and removes the first list entry with the given ID.  The Go `range` over the
map's key set is modelled by the explicit key enumeration `keys` (iteration
order over a Go map is unspecified). -/
def TaskStore.DeleteAttachment (s : TaskStore V) (attachmentID : String)
    (keys : List String) : Except Err Unit × TaskStore V :=
  match keys with
  | [] => (.error (.attachmentNotFound attachmentID), s)
  | tid :: rest =>
      match (s.attachments tid).findIdx? (fun a => a.ID = attachmentID) with
      | some i =>
          (.ok (), { s with attachments := fun id =>
            if id = tid then (s.attachments tid).eraseIdx i else s.attachments id })
      | none => s.DeleteAttachment attachmentID rest

/-! ### The task service together with its runtime collaborator -/

/-- A task service instance and the runtime service it delegates to. -/
structure EngineStores (V : Type) where
  taskSvc : TaskStore V
  runtimeSvc : RuntimeStore V

/-- Go `taskServiceImpl.CompleteWithVariables`: looks the task up, writes the
supplied variables into the owning execution's scope when both are present
(wrapping a failure as "failed to set variables"), signals the owning
execution (wrapping a failure as "failed to signal execution"), and finally
deletes the task record — only the `tasks` map entry — from the task store. -/
def CompleteWithVariables (st : EngineStores V) (taskID : String)
    («variables» : Option (VarMap V)) : Except Err Unit × EngineStores V :=
  match st.taskSvc.tasks taskID with
  | none => (.error (.taskNotFound taskID), st)
  | some task =>
      let afterSet : Except Err Unit × EngineStores V :=
        match «variables» with
        | some vm =>
            if task.ExecutionID ≠ "" then
              match st.runtimeSvc.SetVariables task.ExecutionID vm with
              | (.error e, rt') => (.error (.setVariablesFailed e), { st with runtimeSvc := rt' })
              | (.ok _, rt') => (.ok (), { st with runtimeSvc := rt' })
            else (.ok (), st)
        | none => (.ok (), st)
      match afterSet with
      | (.error e, st') => (.error e, st')
      | (.ok _, st') =>
          let afterSignal : Except Err Unit × EngineStores V :=
            if task.ExecutionID ≠ "" then
              match st'.runtimeSvc.Signal task.ExecutionID with
              | (.error e, rt') => (.error (.signalFailed e), { st' with runtimeSvc := rt' })
              | (.ok _, rt') => (.ok (), { st' with runtimeSvc := rt' })
            else (.ok (), st')
          match afterSignal with
          | (.error e, st'') => (.error e, st'')
          | (.ok _, st'') =>
              (.ok (), { st'' with taskSvc :=
                { st''.taskSvc with tasks := setKey st''.taskSvc.tasks taskID none } })

/-- Go `taskServiceImpl.Complete` delegates with a nil variable map. -/
def Complete (st : EngineStores V) (taskID : String) :
    Except Err Unit × EngineStores V :=
  CompleteWithVariables st taskID none

/-! ### Sequences of task-service operations (for the claim-time invariant) -/

/-- One invocation of a mutating method of the task service, with the
non-deterministic inputs (`uuid.New()`, `time.Now()`) recorded in the
operation. -/
inductive TaskOp (V : Type) where
  | claim (taskID userID : String) (now : Time)
  | unclaim (taskID : String)
  | complete (taskID : String) («variables» : Option (VarMap V))
  | setAssignee (taskID userID : String)
  | setOwner (taskID userID : String)
  | addCandidateUser (taskID userID : String)
  | addCandidateGroup (taskID groupID : String)
  | deleteCandidateUser (taskID userID : String)
  | deleteCandidateGroup (taskID groupID : String)
  | setPriority (taskID : String) (priority : Int)
  | setDueDate (taskID : String) (dueDate : Time)
  | setTaskVariable (taskID name : String) (value : V)
  | setTaskVariables (taskID : String) («variables» : VarMap V)
  | removeTaskVariable (taskID name : String)
  | addComment (taskID message newID : String) (now : Time)
  | createAttachment (taskID attachmentType name description : String)
      (content : List Nat) (newID : String) (now : Time)
  | deleteAttachment (attachmentID : String) (keys : List String)
  | deleteTask (taskID : String)
  | saveTask (t : Task)

/-- The state after running one task-service call (the returned error, if
any, goes to the caller; the store is left exactly as the method left it). -/
def TaskOp.step (op : TaskOp V) (st : EngineStores V) : EngineStores V :=
  let inTask (f : TaskStore V → Except Err Unit × TaskStore V) : EngineStores V :=
    { st with taskSvc := (f st.taskSvc).2 }
  match op with
  | .claim taskID userID now => inTask (fun s => s.Claim taskID userID now)
  | .unclaim taskID => inTask (fun s => s.Unclaim taskID)
  | .complete taskID vm => (CompleteWithVariables st taskID vm).2
  | .setAssignee taskID userID => inTask (fun s => s.SetAssignee taskID userID)
  | .setOwner taskID userID => inTask (fun s => s.SetOwner taskID userID)
  | .addCandidateUser taskID userID => inTask (fun s => s.AddCandidateUser taskID userID)
  | .addCandidateGroup taskID groupID => inTask (fun s => s.AddCandidateGroup taskID groupID)
  | .deleteCandidateUser taskID userID => inTask (fun s => s.DeleteCandidateUser taskID userID)
  | .deleteCandidateGroup taskID groupID => inTask (fun s => s.DeleteCandidateGroup taskID groupID)
  | .setPriority taskID priority => inTask (fun s => s.SetPriority taskID priority)
  | .setDueDate taskID dueDate => inTask (fun s => s.SetDueDate taskID dueDate)
  | .setTaskVariable taskID name value => inTask (fun s => s.SetTaskVariable taskID name value)
  | .setTaskVariables taskID vm => inTask (fun s => s.SetTaskVariables taskID vm)
  | .removeTaskVariable taskID name => inTask (fun s => s.RemoveTaskVariable taskID name)
  | .addComment taskID message newID now =>
      { st with taskSvc := (st.taskSvc.AddComment taskID message newID now).2 }
  | .createAttachment taskID attachmentType name description content newID now =>
      { st with taskSvc :=
        (st.taskSvc.CreateAttachment taskID attachmentType name description content newID now).2 }
  | .deleteAttachment attachmentID keys =>
      inTask (fun s => s.DeleteAttachment attachmentID keys)
  | .deleteTask taskID => inTask (fun s => s.DeleteTask taskID)
  | .saveTask t => inTask (fun s => s.SaveTask t)

/-- Run a call sequence left to right. -/
def runOps (ops : List (TaskOp V)) (st : EngineStores V) : EngineStores V :=
  ops.foldl (fun s op => op.step s) st

/-- The task-level claim invariant from the spec: the claim time is non-nil
exactly when the assignee is non-empty. -/
def claimInv (t : Task) : Prop := t.ClaimTime ≠ none ↔ t.Assignee ≠ ""

instance (t : Task) : Decidable (claimInv t) := by unfold claimInv; infer_instance

/-- The invariant, over every task record in the store. -/
def claimInvAll (st : EngineStores V) : Prop :=
  ∀ id t, st.taskSvc.tasks id = some t → claimInv t

/-! ### The command-executor interceptor chain (internal/engine) -/

/-- Go `error` values built by `fmt.Errorf`, `%w` keeping the wrapped cause
reachable for `errors.Is`. -/
inductive GoError where
  | base (msg : String)
  | wrap (msg : String) (inner : GoError)
deriving DecidableEq, Repr

/-- Go `errors.Is`: the target equals the error or is reachable by unwrapping. -/
def GoError.is : GoError → GoError → Bool
  | .base msg, target => .base msg = target
  | .wrap msg inner, target => .wrap msg inner = target || inner.is target

/-- Go `engine.CommandContext`: per-traversal scratch state. -/
structure CommandContext (V : Type) where
  Attributes : String → Option V
  Exception : Option GoError
  Result : Option V

/-- Go `NewCommandContext`: empty attributes, no exception, no result. -/
def NewCommandContext (V : Type) : CommandContext V :=
  { Attributes := fun _ => none, Exception := none, Result := none }

/-- A `Command`'s `Execute(ctx, commandContext)` body, as a function of the
command context it is handed, yielding the Go `(interface{}, error)` pair. -/
abbrev Command (V : Type) := CommandContext V → Option V × Option GoError

/-- The value stashed in the ambient Go context under `commandContextKey`. -/
abbrev Ambient (V : Type) := Option (CommandContext V)

/-- Trace events recording which interceptor did what during a traversal. -/
inductive Event where
  | logStart
  | logSuccess
  | logFailure
  | retryWait (attempt : Nat)
  /-- Go `ContextInterceptor.Execute` called `command.Execute` itself. -/
  | execByContext
  /-- Go `CommandInvoker.Execute` called `command.Execute`. -/
  | execByInvoker
  | invokerMissingContext
deriving DecidableEq, Repr

/-- The interceptor variants wired by the builder (internal/engine). -/
inductive Interceptor where
  | logging
  | transaction
  | context
  | retry (maxRetries : Nat)
  | invoker
deriving DecidableEq, Repr

/-- Go `isRetryableError`: the stub classifies nothing as retryable. -/
def isRetryableError (_ : GoError) : Bool := false

/-- The `for attempt := 0; attempt <= maxRetries; attempt++` loop of
`RetryInterceptor.Execute` over a deterministic downstream outcome `step`:
yields the successful result or the last error observed, with the trace of
every attempt made (`attempt > 0` logs a retry and sleeps first). -/
def retryLoop {V : Type} (step : (Option V × Option GoError) × List Event)
    (attempt remaining : Nat) : (Option V ⊕ GoError) × List Event :=
  let evs := (if attempt > 0 then [Event.retryWait attempt] else []) ++ step.2
  match step.1.2 with
  | none => (.inl step.1.1, evs)
  | some e =>
      if isRetryableError e then
        match remaining with
        | 0 => (.inr e, evs)
        | r + 1 =>
            let (out, evs') := retryLoop step (attempt + 1) r
            (out, evs ++ evs')
      else (.inr e, evs)

/-- Traversal of the interceptor chain, as wired by `SetNext` at build time:
each link's `Execute` is the corresponding method of interceptor.go.
An empty remainder models a nil `next` pointer — a nil-pointer fault in Go,
unreachable for every chain the builder produces (the invoker is last and
forwards to nobody). -/
def execChain {V : Type} :
    List Interceptor → Ambient V → Command V → (Option V × Option GoError) × List Event
  | [], _, _ => ((none, some (.base "nil interceptor dereferenced")), [])
  | .logging :: rest, ambient, command =>
      -- LoggingInterceptor.Execute: log start, forward, log outcome, pass through
      let ((r, e), evs) := execChain rest ambient command
      match e with
      | some err => ((r, some err), Event.logStart :: evs ++ [Event.logFailure])
      | none => ((r, none), Event.logStart :: evs ++ [Event.logSuccess])
  | .transaction :: rest, ambient, command =>
      -- TransactionInterceptor.Execute: forward; on error return (nil, err)
      let ((r, e), evs) := execChain rest ambient command
      match e with
      | some err => ((none, some err), evs)
      | none => ((r, none), evs)
  | .retry maxRetries :: rest, ambient, command =>
      -- RetryInterceptor.Execute: the attempt loop, then the exhaustion wrap
      match retryLoop (execChain rest ambient command) 0 maxRetries with
      | (.inl r, evs) => ((r, none), evs)
      | (.inr e, evs) =>
          ((none, some (.wrap ("command failed after " ++ toString maxRetries ++ " retries") e)),
            evs)
  | .context :: _rest, _ambient, command =>
      -- ContextInterceptor.Execute: creates the CommandContext, publishes it
      -- in the ambient context, then calls command.Execute DIRECTLY — it
      -- never forwards to its next interceptor, so _rest is unreachable.
      let commandContext := NewCommandContext V
      let (r, e) := command commandContext
      match e with
      | some err => ((none, some err), [Event.execByContext])
      | none => ((r, none), [Event.execByContext])
  | .invoker :: _rest, ambient, command =>
      -- CommandInvoker.Execute: needs the ambient CommandContext
      match ambient with
      | none =>
          ((none, some (.base "command context not found in context")),
            [Event.invokerMissingContext])
      | some commandContext => (command commandContext, [Event.execByInvoker])

/-- Go `CommandExecutorBuilder` (internal/engine), defaults from
`NewCommandExecutorBuilder`. -/
structure CommandExecutorBuilder where
  interceptors : List Interceptor := []
  enableLogging : Bool := true
  enableTransaction : Bool := true
  enableRetry : Bool := false
  retryAttempts : Nat := 3

/-- Go `CommandExecutorBuilder.Build`: logging, retry, custom, transaction,
context, invoker — in that order, optional stages dropped when disabled. -/
def CommandExecutorBuilder.Build (b : CommandExecutorBuilder) : List Interceptor :=
  (if b.enableLogging then [Interceptor.logging] else []) ++
  (if b.enableRetry then [Interceptor.retry b.retryAttempts] else []) ++
  b.interceptors ++
  (if b.enableTransaction then [Interceptor.transaction] else []) ++
  [Interceptor.context, Interceptor.invoker]

/-- The chain `NewEngine` installs: `Build` on a fresh builder. -/
def defaultChain : List Interceptor := CommandExecutorBuilder.Build {}

/-- Go `engine.NewCommandExecutor` (engine/command_executor.go): panics — here
`none` — when given no interceptors, otherwise wires and keeps the chain. -/
def NewCommandExecutor (interceptors : List Interceptor) :
    Option (List Interceptor) :=
  if interceptors.isEmpty then none else some interceptors

/-- The fields of `taskServiceImpl` filled by its constructor. -/
structure TaskServiceImpl (V : Type) where
  runtimeService : RuntimeStore V
  executor : List Interceptor
  store : TaskStore V

/-- Go `task.NewTaskService`: builds its executor with
`engine.NewCommandExecutor()` — an empty interceptor list — and only then
assembles the service record. -/
def NewTaskService (runtimeService : RuntimeStore V) :
    Option (TaskServiceImpl V) :=
  match NewCommandExecutor [] with
  | none => none
  | some cmdExec =>
      some { runtimeService := runtimeService
             executor := cmdExec
             store :=
               { tasks := fun _ => none
                 comments := fun _ => []
                 attachments := fun _ => []
                 «variables» := fun _ => none } }

/-! ## Concrete fixtures used by witnesses and counterexamples -/

/-- A claimed task owned by alice. -/
def aliceTask : Task := { ID := "t1", Assignee := "alice", ClaimTime := some 5 }

/-- A standalone (no owning execution) unclaimed task. -/
def soloTask : Task := { ID := "t1" }

/-- A task owned by execution "e1". -/
def execTask : Task := { ID := "t2", ExecutionID := "e1" }

/-- A task store holding `aliceTask` under "t1". -/
def aliceStore : TaskStore Nat :=
  { tasks := fun id => if id = "t1" then some aliceTask else none
    comments := fun _ => []
    attachments := fun _ => []
    «variables» := fun _ => none }

/-- A runtime store with process instance "p1" owning execution "e1". -/
def rtStore : RuntimeStore Nat :=
  { processInstances := fun id => if id = "p1" then some { ID := "p1" } else none
    executions := fun id =>
      if id = "e1" then some { ID := "e1", ProcessInstanceID := "p1" } else none
    «variables» := fun id => if id = "e1" then some (fun k => if k = "x" then some 1 else none) else none }

/-- An engine state: `soloTask` with a comment, an attachment and a task
variable, `execTask` bound to execution "e1", over `rtStore`. -/
def fullStores : EngineStores Nat :=
  { taskSvc :=
      { tasks := fun id =>
          if id = "t1" then some soloTask else if id = "t2" then some execTask else none
        comments := fun id => if id = "t1" then [{ ID := "c1", TaskID := "t1" }] else []
        attachments := fun id => if id = "t1" then [{ ID := "a1", TaskID := "t1" }] else []
        «variables» := fun id =>
          if id = "t1" then some (fun k => if k = "y" then some 2 else none) else none }
    runtimeSvc := rtStore }

/-- The scope that `SetVariables` stores: the old scope (empty when nil)
with the incoming entries merged over it. -/
def mergedScope {V : Type} (s : RuntimeStore V) (eid : String) (vm : VarMap V) :
    VarMap V :=
  (match s.«variables» eid with
    | some m => m
    | none => VarMap.empty).merge vm

/-- The store `SetVariables` leaves behind on success. -/
def setVariablesResult {V : Type} (s : RuntimeStore V) (eid : String)
    (vm : VarMap V) : RuntimeStore V :=
  { s with «variables» := setKey s.«variables» eid (some (mergedScope s eid vm)) }

/-- The operations under which the spec's claim-time invariant is actually
preserved: everything except `SetAssignee` (which never touches the claim
time), `SaveTask` (which stores an arbitrary caller-built task), and
`Claim` with an empty user ID (which installs a claim time while leaving
the assignee empty). -/
def opAllowed : TaskOp V → Prop
  | .setAssignee _ _ => False
  | .saveTask _ => False
  | .claim _ userID _ => userID ≠ ""
  | _ => True

/-! ## C5 -/

/-- C5: for every task whose assignee is a non-empty user `u1`, `Claim` by a
different user `u2` returns the already-claimed error and returns with the
store untouched, so the assignee is still `u1` and the claim time is
unchanged. -/
theorem claim_C5_claim_by_other_user_fails (V : Type) (s : TaskStore V)
    (T u1 u2 : String) (now : Time) (task : Task)
    (htask : s.tasks T = some task) (hassn : task.Assignee = u1)
    (h1 : u1 ≠ "") (h2 : u2 ≠ u1) :
    s.Claim T u2 now = (.error (.alreadyClaimedBy u1), s) := by
  unfold TaskStore.Claim
  rw [htask]
  have hc : task.Assignee ≠ "" ∧ task.Assignee ≠ u2 := by
    rw [hassn]
    exact ⟨h1, fun h => h2 h.symm⟩
  dsimp only
  rw [if_pos hc, hassn]

/-- C5 witness: bob cannot steal alice's task "t1". -/
theorem claim_C5_witness :
    aliceStore.tasks "t1" = some aliceTask ∧ aliceTask.Assignee = "alice" ∧
    ("alice" : String) ≠ "" ∧ ("bob" : String) ≠ "alice" ∧
    aliceStore.Claim "t1" "bob" 7 = (.error (.alreadyClaimedBy "alice"), aliceStore) :=
  ⟨rfl, rfl, by decide, by decide,
    claim_C5_claim_by_other_user_fails Nat aliceStore "t1" "alice" "bob" 7 aliceTask
      rfl rfl (by decide) (by decide)⟩

/-! ## Helper lemmas -/

theorem setKey_same {α : Type} (m : String → Option α) (k : String) (v : Option α) :
    setKey m k v k = v := by
  simp [setKey]

theorem setKey_other {α : Type} (m : String → Option α) (k : String) (v : Option α)
    (q : String) (h : q ≠ k) : setKey m k v q = m q := by
  simp [setKey, h]



/-- Go `SetVariables` on an existing execution succeeds and only rewrites that
execution's scope. -/
theorem setVariables_ok {V : Type} (s : RuntimeStore V) (eid : String)
    (vm : VarMap V) (e : Execution) (h : s.executions eid = some e) :
    s.SetVariables eid vm = (.ok (), setVariablesResult s eid vm) := by
  unfold RuntimeStore.SetVariables setVariablesResult mergedScope
  rw [h]

/-- Go `Signal` on an existing execution succeeds and leaves the store as is. -/
theorem signal_ok {V : Type} (s : RuntimeStore V) (eid : String) (e : Execution)
    (h : s.executions eid = some e) : s.Signal eid = (.ok (), s) := by
  unfold RuntimeStore.Signal RuntimeStore.SignalWithVariables
  rw [h]

/-- Under an existing (or absent) owning execution, `CompleteWithVariables`
succeeds and the entire effect on the task store is the removal of the
`tasks` map entry. -/
theorem completeWithVariables_ok_shape {V : Type} (st : EngineStores V)
    (T : String) (task : Task) (vm : Option (VarMap V))
    (htask : st.taskSvc.tasks T = some task)
    (hexec : task.ExecutionID = "" ∨
      ∃ e, st.runtimeSvc.executions task.ExecutionID = some e) :
    ∃ rt', CompleteWithVariables st T vm =
      (.ok (), { taskSvc :=
        { st.taskSvc with tasks := setKey st.taskSvc.tasks T none }
                 runtimeSvc := rt' }) := by
  unfold CompleteWithVariables
  rw [htask]
  by_cases hE : task.ExecutionID = ""
  · refine ⟨st.runtimeSvc, ?_⟩
    rcases vm with _ | vm' <;> simp [hE]
  · obtain ⟨e, he⟩ := hexec.resolve_left hE
    rcases vm with _ | vm'
    · have hsig := signal_ok st.runtimeSvc task.ExecutionID e he
      refine ⟨st.runtimeSvc, ?_⟩
      simp [hE, hsig]
    · rcases hsv : st.runtimeSvc.SetVariables task.ExecutionID vm' with ⟨r1, rt1⟩
      have hset := setVariables_ok st.runtimeSvc task.ExecutionID vm' e he
      rw [hsv, Prod.mk.injEq] at hset
      obtain ⟨hr1, hrt1⟩ := hset
      have hex1 : rt1.executions task.ExecutionID = some e := by
        rw [hrt1]
        exact he
      have hsig := signal_ok rt1 task.ExecutionID e hex1
      refine ⟨rt1, ?_⟩
      simp [hE, hsv, hr1, hsig]

/-! ## C1 -/

/-- C1 counterexample: completing the standalone task "t1" succeeds and
removes the task record, yet its comment, its attachment and its task-scoped
variable all survive in the task store — completion does not cascade to
them, contrary to the claim. -/
theorem claim_C1_counterexample :
    (Complete fullStores "t1").1 = .ok () ∧
    (Complete fullStores "t1").2.taskSvc.tasks "t1" = none ∧
    (Complete fullStores "t1").2.taskSvc.comments "t1" = [{ ID := "c1", TaskID := "t1" }] ∧
    (Complete fullStores "t1").2.taskSvc.attachments "t1" = [{ ID := "a1", TaskID := "t1" }] ∧
    ((Complete fullStores "t1").2.taskSvc.«variables» "t1").isSome = true := by
  refine ⟨?_, ?_, ?_, ?_, ?_⟩ <;> rfl

/-- C1 (amended): for every task in the store whose owning execution (when
it has one) exists in the runtime store, `CompleteWithVariables` succeeds
and removes only the task record — the task's comments, attachments and
task-scoped variables remain in the store — and a second completion of the
same task ID fails with the task-not-found error. -/
theorem claim_C1_amended_complete_removes_only_task_record (V : Type)
    (st : EngineStores V) (T : String) (task : Task) (vm : Option (VarMap V))
    (htask : st.taskSvc.tasks T = some task)
    (hexec : task.ExecutionID = "" ∨
      ∃ e, st.runtimeSvc.executions task.ExecutionID = some e) :
    (CompleteWithVariables st T vm).1 = .ok () ∧
    (CompleteWithVariables st T vm).2.taskSvc.tasks T = none ∧
    (∀ id, (CompleteWithVariables st T vm).2.taskSvc.comments id = st.taskSvc.comments id) ∧
    (∀ id, (CompleteWithVariables st T vm).2.taskSvc.attachments id = st.taskSvc.attachments id) ∧
    (∀ id, (CompleteWithVariables st T vm).2.taskSvc.«variables» id = st.taskSvc.«variables» id) ∧
    ∀ vm2, (CompleteWithVariables (CompleteWithVariables st T vm).2 T vm2).1 =
      .error (.taskNotFound T) := by
  obtain ⟨rt', hshape⟩ := completeWithVariables_ok_shape st T task vm htask hexec
  rw [hshape]
  refine ⟨rfl, setKey_same _ _ _, fun _ => rfl, fun _ => rfl, fun _ => rfl, fun vm2 => ?_⟩
  unfold CompleteWithVariables
  dsimp only
  rw [setKey_same]

/-- C1 witness: completing task "t2" (owned by the existing execution "e1")
removes only the task record, and a repeat completion fails task-not-found. -/
theorem claim_C1_witness :
    fullStores.taskSvc.tasks "t2" = some execTask ∧
    (execTask.ExecutionID = "" ∨
      ∃ e, fullStores.runtimeSvc.executions execTask.ExecutionID = some e) ∧
    ((CompleteWithVariables fullStores "t2" none).1 = .ok () ∧
     (CompleteWithVariables fullStores "t2" none).2.taskSvc.tasks "t2" = none ∧
     (∀ id, (CompleteWithVariables fullStores "t2" none).2.taskSvc.comments id =
        fullStores.taskSvc.comments id) ∧
     (∀ id, (CompleteWithVariables fullStores "t2" none).2.taskSvc.attachments id =
        fullStores.taskSvc.attachments id) ∧
     (∀ id, (CompleteWithVariables fullStores "t2" none).2.taskSvc.«variables» id =
        fullStores.taskSvc.«variables» id) ∧
     ∀ vm2, (CompleteWithVariables (CompleteWithVariables fullStores "t2" none).2 "t2" vm2).1 =
       .error (.taskNotFound "t2")) :=
  ⟨rfl, Or.inr ⟨{ ID := "e1", ProcessInstanceID := "p1" }, rfl⟩,
    claim_C1_amended_complete_removes_only_task_record Nat fullStores "t2" execTask none
      rfl (Or.inr ⟨{ ID := "e1", ProcessInstanceID := "p1" }, rfl⟩)⟩

/-! ## C2 -/

/-- A merged map keeps every incoming entry. -/
theorem merge_keeps_incoming {V : Type} (base vm : VarMap V) (k : String) (v : V)
    (h : vm k = some v) : base.merge vm k = some v := by
  unfold VarMap.merge
  rw [h]

/-- Go `CompleteWithVariables` with a non-nil variable map on a task owned by
an existing execution: the exact resulting state. -/
theorem completeWithVariables_some_shape {V : Type} (st : EngineStores V)
    (T : String) (task : Task) (vm : VarMap V) (e : Execution)
    (htask : st.taskSvc.tasks T = some task)
    (hE : task.ExecutionID ≠ "")
    (he : st.runtimeSvc.executions task.ExecutionID = some e) :
    CompleteWithVariables st T (some vm) =
      (.ok (), { taskSvc := { st.taskSvc with tasks := setKey st.taskSvc.tasks T none }
                 runtimeSvc := setVariablesResult st.runtimeSvc task.ExecutionID vm }) := by
  unfold CompleteWithVariables
  rw [htask]
  have hset := setVariables_ok st.runtimeSvc task.ExecutionID vm e he
  have hsig := signal_ok (setVariablesResult st.runtimeSvc task.ExecutionID vm)
    task.ExecutionID e he
  simp [hE, hset, hsig]

/-- C2: completing a task bound to an existing execution with a non-empty
variable map succeeds; every supplied entry is readable back through
`GetVariables` on that execution, and the task record is gone afterwards,
so reading its task variables fails task-not-found. -/
theorem claim_C2_complete_propagates_variables (V : Type) (st : EngineStores V)
    (T eid : String) (task : Task) (e : Execution) (vm : VarMap V)
    (htask : st.taskSvc.tasks T = some task)
    (heid : task.ExecutionID = eid) (hne : eid ≠ "")
    (he : st.runtimeSvc.executions eid = some e)
    (hnonempty : ∃ k v, vm k = some v) :
    (CompleteWithVariables st T (some vm)).1 = .ok () ∧
    (∃ m, ((CompleteWithVariables st T (some vm)).2.runtimeSvc.GetVariables eid).1 = .ok m ∧
      ∀ k v, vm k = some v → m k = some v) ∧
    (CompleteWithVariables st T (some vm)).2.taskSvc.tasks T = none ∧
    ((CompleteWithVariables st T (some vm)).2.taskSvc.GetTaskVariables T).1 =
      .error (.taskNotFound T) := by
  subst heid
  have hshape := completeWithVariables_some_shape st T task vm e htask hne he
  rw [hshape]
  refine ⟨rfl, ?_, setKey_same _ _ _, ?_⟩
  · unfold RuntimeStore.GetVariables setVariablesResult
    dsimp only
    rw [he]
    refine ⟨_, rfl, fun k v hkv => ?_⟩
    dsimp only
    rw [setKey_same]
    exact merge_keeps_incoming _ vm k v hkv
  · unfold TaskStore.GetTaskVariables
    dsimp only
    rw [setKey_same]

/-- C2 witness: completing "t2" (execution "e1") with the single-entry map
z ↦ 9 makes z readable on "e1" and leaves "t2" unfindable. -/
theorem claim_C2_witness :
    fullStores.taskSvc.tasks "t2" = some execTask ∧
    execTask.ExecutionID = "e1" ∧ ("e1" : String) ≠ "" ∧
    fullStores.runtimeSvc.executions "e1" = some { ID := "e1", ProcessInstanceID := "p1" } ∧
    (∃ k v, (fun q => if q = "z" then some 9 else none : VarMap Nat) k = some v) ∧
    ((CompleteWithVariables fullStores "t2" (some (fun q => if q = "z" then some 9 else none))).1 = .ok () ∧
     (∃ m, ((CompleteWithVariables fullStores "t2"
         (some (fun q => if q = "z" then some 9 else none))).2.runtimeSvc.GetVariables "e1").1 = .ok m ∧
       ∀ k v, (fun q => if q = "z" then some 9 else none : VarMap Nat) k = some v → m k = some v) ∧
     (CompleteWithVariables fullStores "t2"
         (some (fun q => if q = "z" then some 9 else none))).2.taskSvc.tasks "t2" = none ∧
     ((CompleteWithVariables fullStores "t2"
         (some (fun q => if q = "z" then some 9 else none))).2.taskSvc.GetTaskVariables "t2").1 =
       .error (.taskNotFound "t2")) :=
  ⟨rfl, rfl, by decide, rfl, ⟨"z", 9, rfl⟩,
    claim_C2_complete_propagates_variables Nat fullStores "t2" "e1" execTask
      { ID := "e1", ProcessInstanceID := "p1" } (fun q => if q = "z" then some 9 else none)
      rfl rfl (by decide) rfl ⟨"z", 9, rfl⟩⟩

/-! ## C3 -/

/-- Updating one key of an invariant-respecting task map with an
invariant-respecting value keeps every stored task invariant-respecting. -/
theorem invAll_setKey (m : String → Option Task) (tid : String) (v : Option Task)
    (hm : ∀ id t, m id = some t → claimInv t)
    (hv : ∀ t, v = some t → claimInv t) :
    ∀ id t, setKey m tid v id = some t → claimInv t := by
  intro id t h
  by_cases hid : id = tid
  · subst hid
    rw [setKey_same] at h
    exact hv t h
  · rw [setKey_other _ _ _ _ hid] at h
    exact hm id t h

/-- Replacing a stored task by one with the same assignee and claim time
keeps every stored task invariant-respecting. -/
theorem invAll_updateField (s : TaskStore V) (tid : String) (task : Task)
    {t' : Task} (h : s.tasks tid = some task)
    (hm : ∀ id t, s.tasks id = some t → claimInv t)
    (id : String) (t : Task) (ht : setKey s.tasks tid (some t') id = some t)
    (hc : t'.ClaimTime = task.ClaimTime) (ha : t'.Assignee = task.Assignee) :
    claimInv t := by
  refine invAll_setKey s.tasks tid (some t') hm ?_ id t ht
  intro u hu
  cases hu
  unfold claimInv
  rw [hc, ha]
  exact hm tid task h

/-- Go `DeleteAttachment` never touches the `tasks` map. -/
theorem deleteAttachment_tasks (s : TaskStore V) (aid : String)
    (keys : List String) : (s.DeleteAttachment aid keys).2.tasks = s.tasks := by
  induction keys with
  | nil => rfl
  | cons tid rest ih =>
      unfold TaskStore.DeleteAttachment
      rcases h : (s.attachments tid).findIdx? (fun a => a.ID = aid) with _ | i
      · rw [h]
        exact ih
      · rw [h]

/-- Go `CompleteWithVariables` either leaves the `tasks` map alone (an error
path) or removes exactly the completed key. -/
theorem completeWithVariables_tasks (st : EngineStores V) (T : String)
    (vm : Option (VarMap V)) :
    (CompleteWithVariables st T vm).2.taskSvc.tasks = st.taskSvc.tasks ∨
    (CompleteWithVariables st T vm).2.taskSvc.tasks = setKey st.taskSvc.tasks T none := by
  unfold CompleteWithVariables
  rcases htasks : st.taskSvc.tasks T with _ | task
  · exact Or.inl rfl
  dsimp only
  by_cases hE : task.ExecutionID = ""
  · rcases vm with _ | vm' <;> simp [hE]
  rcases vm with _ | vm'
  · rcases hsg : st.runtimeSvc.Signal task.ExecutionID with ⟨rs, rts⟩
    rcases rs with es | u
    · simp [hE, hsg]
    · simp [hE, hsg]
  · rcases hsv : st.runtimeSvc.SetVariables task.ExecutionID vm' with ⟨r1, rt1⟩
    rcases r1 with e1 | u1
    · simp [hE, hsv]
    · rcases hsg : rt1.Signal task.ExecutionID with ⟨rs, rts⟩
      rcases rs with es | u
      · simp [hE, hsv, hsg]
      · simp [hE, hsv, hsg]


/-- One allowed task-service call preserves the claim-time invariant. -/
theorem step_preserves_claimInv (op : TaskOp V) (st : EngineStores V)
    (hop : opAllowed op) (hinv : claimInvAll st) : claimInvAll (op.step st) := by
  cases op with
  | claim tid u now =>
      intro id t ht
      revert ht
      unfold TaskOp.step TaskStore.Claim
      dsimp only
      rcases h : st.taskSvc.tasks tid with _ | task
      · exact fun ht => hinv id t ht
      · dsimp only
        by_cases hcl : task.Assignee ≠ "" ∧ task.Assignee ≠ u
        · rw [if_pos hcl]
          exact fun ht => hinv id t ht
        · rw [if_neg hcl]
          refine fun ht => invAll_setKey st.taskSvc.tasks tid _ hinv ?_ id t ht
          intro t' ht'
          cases ht'
          unfold claimInv
          simpa using hop
  | unclaim tid =>
      intro id t ht
      revert ht
      unfold TaskOp.step TaskStore.Unclaim
      dsimp only
      rcases h : st.taskSvc.tasks tid with _ | task
      · exact fun ht => hinv id t ht
      · dsimp only
        refine fun ht => invAll_setKey st.taskSvc.tasks tid _ hinv ?_ id t ht
        intro t' ht'
        cases ht'
        unfold claimInv
        simp
  | complete tid vm =>
      intro id t ht
      rcases completeWithVariables_tasks st tid vm with hsame | hdel
      · refine hinv id t ?_
        rw [← hsame]
        exact ht
      · refine invAll_setKey st.taskSvc.tasks tid none hinv ?_ id t ?_
        · intro t' ht'
          cases ht'
        · rw [← hdel]
          exact ht
  | setAssignee tid u => cases hop
  | saveTask t0 => cases hop
  | setOwner tid u =>
      intro id t ht
      revert ht
      unfold TaskOp.step TaskStore.SetOwner
      dsimp only
      rcases h : st.taskSvc.tasks tid with _ | task
      · exact fun ht => hinv id t ht
      · dsimp only
        exact fun ht => invAll_updateField st.taskSvc tid task h hinv id t ht rfl rfl
  | addCandidateUser tid u =>
      intro id t ht
      revert ht
      unfold TaskOp.step TaskStore.AddCandidateUser
      dsimp only
      rcases h : st.taskSvc.tasks tid with _ | task
      · exact fun ht => hinv id t ht
      · dsimp only
        by_cases hmem : u ∈ task.CandidateUsers
        · rw [if_pos hmem]
          exact fun ht => hinv id t ht
        · rw [if_neg hmem]
          exact fun ht => invAll_updateField st.taskSvc tid task h hinv id t ht rfl rfl
  | addCandidateGroup tid g =>
      intro id t ht
      revert ht
      unfold TaskOp.step TaskStore.AddCandidateGroup
      dsimp only
      rcases h : st.taskSvc.tasks tid with _ | task
      · exact fun ht => hinv id t ht
      · dsimp only
        by_cases hmem : g ∈ task.CandidateGroups
        · rw [if_pos hmem]
          exact fun ht => hinv id t ht
        · rw [if_neg hmem]
          exact fun ht => invAll_updateField st.taskSvc tid task h hinv id t ht rfl rfl
  | deleteCandidateUser tid u =>
      intro id t ht
      revert ht
      unfold TaskOp.step TaskStore.DeleteCandidateUser
      dsimp only
      rcases h : st.taskSvc.tasks tid with _ | task
      · exact fun ht => hinv id t ht
      · dsimp only
        exact fun ht => invAll_updateField st.taskSvc tid task h hinv id t ht rfl rfl
  | deleteCandidateGroup tid g =>
      intro id t ht
      revert ht
      unfold TaskOp.step TaskStore.DeleteCandidateGroup
      dsimp only
      rcases h : st.taskSvc.tasks tid with _ | task
      · exact fun ht => hinv id t ht
      · dsimp only
        exact fun ht => invAll_updateField st.taskSvc tid task h hinv id t ht rfl rfl
  | setPriority tid p =>
      intro id t ht
      revert ht
      unfold TaskOp.step TaskStore.SetPriority
      dsimp only
      rcases h : st.taskSvc.tasks tid with _ | task
      · exact fun ht => hinv id t ht
      · dsimp only
        exact fun ht => invAll_updateField st.taskSvc tid task h hinv id t ht rfl rfl
  | setDueDate tid d =>
      intro id t ht
      revert ht
      unfold TaskOp.step TaskStore.SetDueDate
      dsimp only
      rcases h : st.taskSvc.tasks tid with _ | task
      · exact fun ht => hinv id t ht
      · dsimp only
        exact fun ht => invAll_updateField st.taskSvc tid task h hinv id t ht rfl rfl
  | setTaskVariable tid nm v =>
      intro id t ht
      revert ht
      unfold TaskOp.step TaskStore.SetTaskVariable
      dsimp only
      rcases h : st.taskSvc.tasks tid with _ | task
      · exact fun ht => hinv id t ht
      · exact fun ht => hinv id t ht
  | setTaskVariables tid vm =>
      intro id t ht
      revert ht
      unfold TaskOp.step TaskStore.SetTaskVariables
      dsimp only
      rcases h : st.taskSvc.tasks tid with _ | task
      · exact fun ht => hinv id t ht
      · exact fun ht => hinv id t ht
  | removeTaskVariable tid nm =>
      intro id t ht
      revert ht
      unfold TaskOp.step TaskStore.RemoveTaskVariable
      dsimp only
      rcases h : st.taskSvc.tasks tid with _ | task
      · exact fun ht => hinv id t ht
      · dsimp only
        rcases hv : st.taskSvc.«variables» tid with _ | m
        · exact fun ht => hinv id t ht
        · exact fun ht => hinv id t ht
  | addComment tid msg nid now =>
      intro id t ht
      revert ht
      unfold TaskOp.step TaskStore.AddComment
      dsimp only
      rcases h : st.taskSvc.tasks tid with _ | task
      · exact fun ht => hinv id t ht
      · exact fun ht => hinv id t ht
  | createAttachment tid ty nm d c nid now =>
      intro id t ht
      revert ht
      unfold TaskOp.step TaskStore.CreateAttachment
      dsimp only
      rcases h : st.taskSvc.tasks tid with _ | task
      · exact fun ht => hinv id t ht
      · exact fun ht => hinv id t ht
  | deleteAttachment aid keys =>
      intro id t ht
      refine hinv id t ?_
      rw [← deleteAttachment_tasks st.taskSvc aid keys]
      exact ht
  | deleteTask tid =>
      intro id t ht
      revert ht
      unfold TaskOp.step TaskStore.DeleteTask
      dsimp only
      rcases h : st.taskSvc.tasks tid with _ | task
      · exact fun ht => hinv id t ht
      · dsimp only
        refine fun ht => invAll_setKey st.taskSvc.tasks tid none hinv ?_ id t ht
        intro t' ht'
        cases ht'

/-- C3 counterexample: from a freshly stored task with no assignee and no
claim time, the single listed operation `SetAssignee("t1", "alice")` —
explicitly part of the claimed closure — yields a stored task with a
non-empty assignee and a nil claim time, violating the invariant. -/
theorem claim_C3_counterexample :
    soloTask.Assignee = "" ∧ soloTask.ClaimTime = none ∧
    (runOps [TaskOp.setAssignee "t1" "alice"] fullStores).taskSvc.tasks "t1" =
      some { soloTask with Assignee := "alice" } ∧
    ¬ claimInv { soloTask with Assignee := "alice" } :=
  ⟨rfl, rfl, rfl, by decide⟩

/-- C3 (amended): the claim-time invariant is preserved by every sequence
of task-service operations drawn from the set that excludes `SetAssignee`
and `SaveTask` and uses `Claim` only with a non-empty user: if every task
in the store satisfies it, it still holds after running the sequence.
`SetAssignee` itself breaks the invariant, as the counterexample shows. -/
theorem claim_C3_amended_claim_invariant (V : Type) (ops : List (TaskOp V))
    (st : EngineStores V) (hops : ∀ op ∈ ops, opAllowed op)
    (hinv : claimInvAll st) : claimInvAll (runOps ops st) := by
  induction ops generalizing st with
  | nil => exact hinv
  | cons op rest ih =>
      exact ih (op.step st) (fun o ho => hops o (List.mem_cons_of_mem _ ho))
        (step_preserves_claimInv op st (hops op (List.mem_cons_self _ _)) hinv)

/-- The fixture store satisfies the claim-time invariant. -/
theorem fullStores_claimInvAll : claimInvAll fullStores := by
  intro id t
  show (if id = "t1" then some soloTask else if id = "t2" then some execTask else none) =
      some t → claimInv t
  by_cases h1 : id = "t1"
  · rw [if_pos h1]
    intro ht
    injection ht with ht2
    subst ht2
    decide
  · rw [if_neg h1]
    by_cases h2 : id = "t2"
    · rw [if_pos h2]
      intro ht
      injection ht with ht2
      subst ht2
      decide
    · rw [if_neg h2]
      intro ht
      cases ht

/-- C3 witness: a claim followed by an unclaim on the fixture store keeps
every stored task invariant-respecting. -/
theorem claim_C3_witness :
    (∀ op ∈ [TaskOp.claim "t1" "alice" 3, TaskOp.unclaim (V := Nat) "t1"], opAllowed op) ∧
    claimInvAll fullStores ∧
    claimInvAll (runOps [TaskOp.claim "t1" "alice" 3, TaskOp.unclaim "t1"] fullStores) := by
  have hops : ∀ op ∈ [TaskOp.claim "t1" "alice" 3, TaskOp.unclaim (V := Nat) "t1"], opAllowed op := by
    intro op hop
    rcases List.mem_cons.mp hop with rfl | hop2
    · exact (by decide : ("alice" : String) ≠ "")
    · rcases List.mem_cons.mp hop2 with rfl | hop3
      · trivial
      · cases hop3
  exact ⟨hops, fullStores_claimInvAll,
    claim_C3_amended_claim_invariant Nat _ fullStores hops fullStores_claimInvAll⟩

/-! ## C6 -/

/-- C6: starting a process instance from a suspended definition fails with
the definition-suspended error and changes nothing; from a non-suspended
definition it creates a ProcessInstance `P` with the fresh ID and the
business key, a root Execution stored under `P.ID` whose `ID` and
`ProcessInstanceID` both equal `P.ID`, and seeds that execution's variable
scope with exactly the entries of the supplied map (`newID` is the fresh
`uuid`, so no stale scope exists under it). -/
theorem claim_C6_start_process_instance (V : Type) (s : RuntimeStore V)
    (pd : ProcessDefinition) (businessKey : String) (vars : Option (VarMap V))
    (newID : String) (now : Time) (hfresh : s.«variables» newID = none) :
    (pd.Suspended = true →
      s.startProcessInstance pd businessKey vars newID now =
        (.error (.definitionSuspended pd.ID), s)) ∧
    (pd.Suspended = false →
      ∃ P E, (s.startProcessInstance pd businessKey vars newID now).1 = .ok P ∧
        P.ID = newID ∧ P.BusinessKey = businessKey ∧ P.ProcessDefinitionID = pd.ID ∧
        (s.startProcessInstance pd businessKey vars newID now).2.processInstances P.ID = some P ∧
        (s.startProcessInstance pd businessKey vars newID now).2.executions P.ID = some E ∧
        E.ID = P.ID ∧ E.ProcessInstanceID = P.ID ∧ E.IsActive = true ∧ E.IsScope = true ∧
        ∀ k, optEntries ((s.startProcessInstance pd businessKey vars newID now).2.«variables» P.ID) k =
          optEntries vars k) := by
  constructor
  · intro hS
    unfold RuntimeStore.startProcessInstance
    rw [hS, if_pos rfl]
  · intro hS
    unfold RuntimeStore.startProcessInstance
    rw [hS, if_neg Bool.false_ne_true]
    dsimp only
    rcases vars with _ | vm
    · refine ⟨_, _, rfl, rfl, rfl, rfl, setKey_same _ _ _, setKey_same _ _ _,
        rfl, rfl, rfl, rfl, fun k => ?_⟩
      show optEntries (s.«variables» newID) k = optEntries none k
      rw [hfresh]
    · refine ⟨_, _, rfl, rfl, rfl, rfl, setKey_same _ _ _, setKey_same _ _ _,
        rfl, rfl, rfl, rfl, fun k => ?_⟩
      show optEntries (setKey s.«variables» newID (some (VarMap.empty.merge vm)) newID) k =
        optEntries (some vm) k
      rw [setKey_same]
      rcases hk : vm k with _ | v <;> simp [optEntries, VarMap.merge, VarMap.empty, hk]

/-- C6 witness: starting over the fixture runtime store with a fresh ID
"p2" behaves as stated for a non-suspended definition. -/
theorem claim_C6_witness :
    rtStore.«variables» "p2" = none ∧
    ((ProcessDefinition.mk "d1" "k1" "" "" 0 "" "" "" "" false "" false).Suspended = true →
      rtStore.startProcessInstance (ProcessDefinition.mk "d1" "k1" "" "" 0 "" "" "" "" false "" false)
        "bk" (some (fun q => if q = "a" then some 4 else none)) "p2" 10 =
        (.error (.definitionSuspended "d1"), rtStore)) ∧
    ((ProcessDefinition.mk "d1" "k1" "" "" 0 "" "" "" "" false "" false).Suspended = false →
      ∃ P E, (rtStore.startProcessInstance
          (ProcessDefinition.mk "d1" "k1" "" "" 0 "" "" "" "" false "" false)
          "bk" (some (fun q => if q = "a" then some 4 else none)) "p2" 10).1 = .ok P ∧
        P.ID = "p2" ∧ P.BusinessKey = "bk" ∧ P.ProcessDefinitionID = "d1" ∧
        (rtStore.startProcessInstance
          (ProcessDefinition.mk "d1" "k1" "" "" 0 "" "" "" "" false "" false)
          "bk" (some (fun q => if q = "a" then some 4 else none)) "p2" 10).2.processInstances P.ID = some P ∧
        (rtStore.startProcessInstance
          (ProcessDefinition.mk "d1" "k1" "" "" 0 "" "" "" "" false "" false)
          "bk" (some (fun q => if q = "a" then some 4 else none)) "p2" 10).2.executions P.ID = some E ∧
        E.ID = P.ID ∧ E.ProcessInstanceID = P.ID ∧ E.IsActive = true ∧ E.IsScope = true ∧
        ∀ k, optEntries ((rtStore.startProcessInstance
          (ProcessDefinition.mk "d1" "k1" "" "" 0 "" "" "" "" false "" false)
          "bk" (some (fun q => if q = "a" then some 4 else none)) "p2" 10).2.«variables» P.ID) k =
          optEntries (some (fun q => if q = "a" then some 4 else none)) k) :=
  ⟨rfl,
    (claim_C6_start_process_instance Nat rtStore
      (ProcessDefinition.mk "d1" "k1" "" "" 0 "" "" "" "" false "" false)
      "bk" (some (fun q => if q = "a" then some 4 else none)) "p2" 10 rfl).1,
    (claim_C6_start_process_instance Nat rtStore
      (ProcessDefinition.mk "d1" "k1" "" "" 0 "" "" "" "" false "" false)
      "bk" (some (fun q => if q = "a" then some 4 else none)) "p2" 10 rfl).2⟩

/-! ## C7 -/

/-- C7: deleting an existing process instance removes the instance record,
every execution referencing it together with that execution's variable
scope, and nothing else; deleting an absent instance fails not-found with
the store unchanged. -/
theorem claim_C7_delete_process_instance (V : Type) (s : RuntimeStore V)
    (pid reason : String) :
    (∀ P, s.processInstances pid = some P →
      (s.DeleteProcessInstance pid reason).1 = .ok () ∧
      (s.DeleteProcessInstance pid reason).2.processInstances pid = none ∧
      (∀ q, q ≠ pid →
        (s.DeleteProcessInstance pid reason).2.processInstances q = s.processInstances q) ∧
      (∀ id e, s.executions id = some e → e.ProcessInstanceID = pid →
        (s.DeleteProcessInstance pid reason).2.executions id = none ∧
        (s.DeleteProcessInstance pid reason).2.«variables» id = none) ∧
      (∀ id e, s.executions id = some e → e.ProcessInstanceID ≠ pid →
        (s.DeleteProcessInstance pid reason).2.executions id = some e ∧
        (s.DeleteProcessInstance pid reason).2.«variables» id = s.«variables» id) ∧
      (∀ id, s.executions id = none →
        (s.DeleteProcessInstance pid reason).2.executions id = none ∧
        (s.DeleteProcessInstance pid reason).2.«variables» id = s.«variables» id)) ∧
    (s.processInstances pid = none →
      s.DeleteProcessInstance pid reason = (.error (.processInstanceNotFound pid), s)) := by
  constructor
  · intro P hP
    unfold RuntimeStore.DeleteProcessInstance
    rw [hP]
    dsimp only
    refine ⟨rfl, setKey_same _ _ _, fun q hq => setKey_other _ _ _ _ hq, ?_, ?_, ?_⟩
    · intro id e hid hpid
      constructor
      · dsimp only
        rw [hid]
        dsimp only
        rw [if_pos hpid]
      · dsimp only
        rw [hid]
        dsimp only
        rw [if_pos hpid]
    · intro id e hid hpid
      constructor
      · dsimp only
        rw [hid]
        dsimp only
        rw [if_neg hpid]
      · dsimp only
        rw [hid]
        dsimp only
        rw [if_neg hpid]
    · intro id hid
      constructor
      · dsimp only
        rw [hid]
      · dsimp only
        rw [hid]
  · intro hP
    unfold RuntimeStore.DeleteProcessInstance
    rw [hP]

/-- C7 witness: deleting "p1" in the fixture runtime store removes the
instance, execution "e1" and its scope, and deleting a missing "p9" fails. -/
theorem claim_C7_witness :
    rtStore.processInstances "p1" = some { ID := "p1" } ∧
    ((rtStore.DeleteProcessInstance "p1" "done").1 = .ok () ∧
     (rtStore.DeleteProcessInstance "p1" "done").2.processInstances "p1" = none) ∧
    rtStore.processInstances "p9" = none ∧
    rtStore.DeleteProcessInstance "p9" "done" =
      (.error (.processInstanceNotFound "p9"), rtStore) :=
  ⟨rfl,
    ⟨((claim_C7_delete_process_instance Nat rtStore "p1" "done").1 { ID := "p1" } rfl).1,
     ((claim_C7_delete_process_instance Nat rtStore "p1" "done").1 { ID := "p1" } rfl).2.1⟩,
    rfl,
    (claim_C7_delete_process_instance Nat rtStore "p9" "done").2 rfl⟩

/-! ## C4, C8, C9: the interceptor chain -/

/-- Every error reaches itself by `errors.Is`. -/
theorem GoError.is_self (e : GoError) : e.is e = true := by
  cases e <;> simp [GoError.is]

/-- Evaluation of the default logging–transaction–context–invoker chain:
the ContextInterceptor runs the command on a fresh CommandContext, the
result or error passes back up unchanged (nil result on error), and the
trace is the logging wrap around a single context-execution event. -/
theorem execChain_default_eval (V : Type) (ambient : Ambient V) (cmd : Command V) :
    execChain defaultChain ambient cmd =
      (match cmd (NewCommandContext V) with
       | (r, none) => ((r, none), [Event.logStart, Event.execByContext, Event.logSuccess])
       | (_, some err) => ((none, some err), [Event.logStart, Event.execByContext, Event.logFailure])) := by
  show execChain
    [Interceptor.logging, Interceptor.transaction, Interceptor.context, Interceptor.invoker]
    ambient cmd = _
  rcases hc : cmd (NewCommandContext V) with ⟨r, e⟩
  rcases e with _ | err <;> simp [execChain, hc]

/-- C4 counterexample: a command pushed through the chain the default
builder assembles is executed (one context-execution event, successful
result) yet the CommandInvoker is never reached — no invoker event occurs,
refuting "every executed command reaches the CommandInvoker". -/
theorem claim_C4_counterexample :
    (execChain (V := Nat) defaultChain none (fun _ => (some 0, none))).1 = (some 0, none) ∧
    Event.execByContext ∈ (execChain (V := Nat) defaultChain none (fun _ => (some 0, none))).2 ∧
    Event.execByInvoker ∉ (execChain (V := Nat) defaultChain none (fun _ => (some 0, none))).2 := by
  refine ⟨rfl, ?_, ?_⟩ <;> decide

/-- C4 (amended): in the default builder chain the CommandInvoker is wired
innermost but never reached — the ContextInterceptor calls command.Execute
itself, so the trace of any command is the logging wrap around exactly one
context-execution event, with no invoker event.  The CommandInvoker itself,
when it does run, fails with the context-missing error when no ambient
CommandContext is present and otherwise is the one calling command.Execute. -/
theorem claim_C4_amended_invoker_never_reached (V : Type) (cmd : Command V)
    (ambient : Ambient V) :
    ((execChain defaultChain ambient cmd).2 =
      [Event.logStart, Event.execByContext,
        if (cmd (NewCommandContext V)).2 = none then Event.logSuccess else Event.logFailure] ∧
     Event.execByInvoker ∉ (execChain defaultChain ambient cmd).2) ∧
    execChain [Interceptor.invoker] none cmd =
      ((none, some (.base "command context not found in context")),
        [Event.invokerMissingContext]) ∧
    ∀ cc : CommandContext V, execChain [Interceptor.invoker] (some cc) cmd =
      (cmd cc, [Event.execByInvoker]) := by
  refine ⟨⟨?_, ?_⟩, rfl, fun cc => rfl⟩
  · rw [execChain_default_eval]
    rcases hc : cmd (NewCommandContext V) with ⟨r, e⟩
    rcases e with _ | err <;> simp
  · rw [execChain_default_eval]
    rcases hc : cmd (NewCommandContext V) with ⟨r, e⟩
    rcases e with _ | err <;> dsimp only <;> decide

/-- C8: when the downstream chain fails with an error the default
retryable-error predicate rejects, the RetryInterceptor runs the downstream
exactly once — the trace of the retry chain is exactly the trace of one
downstream run, with no retry-wait event — and wraps the error as "failed
after N retries", through which `errors.Is` still reaches the cause. -/
theorem claim_C8_retry_runs_downstream_once (V : Type) (rest : List Interceptor)
    (ambient : Ambient V) (cmd : Command V) (maxRetries : Nat) (e : GoError)
    (hfail : (execChain rest ambient cmd).1.2 = some e) :
    execChain (Interceptor.retry maxRetries :: rest) ambient cmd =
      ((none, some (.wrap ("command failed after " ++ toString maxRetries ++ " retries") e)),
        (execChain rest ambient cmd).2) ∧
    (GoError.wrap ("command failed after " ++ toString maxRetries ++ " retries") e).is e = true := by
  constructor
  · rcases h : execChain rest ambient cmd with ⟨⟨r, e2⟩, evs⟩
    rw [h] at hfail
    dsimp at hfail
    subst hfail
    simp [execChain, retryLoop, h, isRetryableError]
  · simp [GoError.is, GoError.is_self]

/-- C8 witness: with 3 attempts configured over a context–invoker tail whose
command always fails with a non-retryable error, one attempt happens. -/
theorem claim_C8_witness :
    (execChain (V := Nat) [Interceptor.context, Interceptor.invoker] none
      (fun _ => (none, some (.base "boom")))).1.2 = some (.base "boom") ∧
    (execChain (V := Nat) (Interceptor.retry 3 :: [Interceptor.context, Interceptor.invoker]) none
        (fun _ => (none, some (.base "boom"))) =
      ((none, some (.wrap ("command failed after " ++ toString 3 ++ " retries") (.base "boom"))),
        (execChain (V := Nat) [Interceptor.context, Interceptor.invoker] none
          (fun _ => (none, some (.base "boom")))).2) ∧
     (GoError.wrap ("command failed after " ++ toString 3 ++ " retries") (.base "boom")).is
       (.base "boom") = true) :=
  ⟨rfl, claim_C8_retry_runs_downstream_once Nat [Interceptor.context, Interceptor.invoker]
    none (fun _ => (none, some (.base "boom"))) 3 (.base "boom") rfl⟩

/-- C9: pushing a command through the Logging–Transaction–Context–Invoker
chain is result- and error-equivalent to running the command body directly
on a fresh CommandContext: on success the result comes back unchanged, on
failure the returned error is the very error the command returned (so
`errors.Is` on it succeeds); the Logging stage never alters the
result/error pair, and the Transaction stage never alters it whenever the
downstream follows the Go convention of a nil result alongside an error. -/
theorem claim_C9_chain_equivalent_to_direct_call (V : Type) (cmd : Command V)
    (ambient : Ambient V) :
    (((cmd (NewCommandContext V)).2 = none →
      (execChain defaultChain ambient cmd).1 = ((cmd (NewCommandContext V)).1, none)) ∧
     (∀ e, (cmd (NewCommandContext V)).2 = some e →
      (execChain defaultChain ambient cmd).1 = (none, some e) ∧ GoError.is e e = true)) ∧
    (∀ rest, (execChain (Interceptor.logging :: rest) ambient cmd).1 =
      (execChain rest ambient cmd).1) ∧
    (∀ rest, (execChain rest ambient cmd).1.1 = none ∨ (execChain rest ambient cmd).1.2 = none →
      (execChain (Interceptor.transaction :: rest) ambient cmd).1 =
        (execChain rest ambient cmd).1) := by
  refine ⟨⟨?_, ?_⟩, ?_, ?_⟩
  · intro hnone
    rw [execChain_default_eval]
    rcases hc : cmd (NewCommandContext V) with ⟨r, e⟩
    rw [hc] at hnone
    dsimp at hnone
    subst hnone
    simp [hc]
  · intro e he
    rw [execChain_default_eval]
    rcases hc : cmd (NewCommandContext V) with ⟨r, e2⟩
    rw [hc] at he
    dsimp at he
    subst he
    exact ⟨rfl, GoError.is_self e⟩
  · intro rest
    rcases h : execChain rest ambient cmd with ⟨⟨r, e⟩, evs⟩
    rcases e with _ | err <;> simp [execChain, h]
  · intro rest hok
    rcases h : execChain rest ambient cmd with ⟨⟨r, e⟩, evs⟩
    rcases e with _ | err
    · simp [execChain, h]
    · rw [h] at hok
      dsimp at hok
      rcases hok with hr | he
      · subst hr
        simp [execChain, h]
      · cases he

/-- C9 witness: with a command that fails with a base error, the chain
returns exactly that error, and the pass-through facts instantiate. -/
theorem claim_C9_witness :
    (((fun _ => (none, some (.base "x"))) (NewCommandContext Nat) : Option Nat × Option GoError).2 =
        some (.base "x")) ∧
    ((execChain (V := Nat) defaultChain none (fun _ => (none, some (.base "x")))).1 =
        (none, some (.base "x")) ∧ GoError.is (.base "x") (.base "x") = true) ∧
    ((execChain (V := Nat) [] none (fun _ => (none, some (.base "x")))).1.1 = none ∨
      (execChain (V := Nat) [] none (fun _ => (none, some (.base "x")))).1.2 = none) ∧
    (execChain (V := Nat) (Interceptor.transaction :: []) none (fun _ => (none, some (.base "x")))).1 =
      (execChain (V := Nat) [] none (fun _ => (none, some (.base "x")))).1 :=
  ⟨rfl,
    (claim_C9_chain_equivalent_to_direct_call Nat (fun _ => (none, some (.base "x"))) none).1.2
      (.base "x") rfl,
    Or.inl rfl,
    (claim_C9_chain_equivalent_to_direct_call Nat (fun _ => (none, some (.base "x"))) none).2.2
      [] (Or.inl rfl)⟩

/-! ## C10 -/

/-- C10: `NewTaskService` hands `engine.NewCommandExecutor` an empty
interceptor list, and that constructor panics on an empty list, so the
public constructor can never produce a task service. -/
theorem claim_C10_new_task_service_always_panics :
    (∀ (V : Type) (rt : RuntimeStore V), NewTaskService rt = none) ∧
    NewCommandExecutor [] = none :=
  ⟨fun _ _ => rfl, rfl⟩

end FlowGo
